import Mathlib

/-!
Shallow embedding of the proof-verification engine of the ckb light client
(`src/protocols/light_client/components/send_last_state_proof.rs` and
`src/protocols/light_client/peers.rs`).

Machine integers are modelled by `Nat`:
* `U256` values are natural numbers, with an explicit cap `U256MAX`
  wherever the source performs a saturating multiplication, and with an
  explicit overflow guard (an error value `panicked`) wherever the source
  would abort on an arithmetic overflow, a subtraction underflow, or an
  out-of-range slice index.
* `u64`/`u32`/`usize` values are plain naturals; their subtractions in
  the source only occur where the surrounding guards make them safe, and
  the guarded places are modelled explicitly.
-/

/-- The largest value a `U256` can hold. -/
def U256MAX : Nat := 2 ^ 256 - 1

/-- `U256::saturating_mul`. -/
def satMul (a b : Nat) : Nat := min (a * b) U256MAX

/-- Status codes returned by the verification engine (a subset of the
`StatusCode` enum of the protocol, plus `panicked` standing for a Rust
abort on arithmetic overflow or an out-of-range index). -/
inductive Code
  | malformedProtocolMessage
  | invalidReorgHeaders
  | invalidSamples
  | invalidParentBlock
  | invalidProof
  | invalidCompactTarget
  | invalidTotalDifficulty
  | requireRecheck
  | panicked
deriving DecidableEq, Repr

/-- `EpochNumberWithFraction`: the packed `number/index/length` triple. -/
structure Epoch where
  number : Nat
  index : Nat
  length : Nat
deriving DecidableEq, Repr

/-- The data of a `VerifiableHeader` needed by the verification engine:
the header fields (block number, own hash, parent hash, epoch, compact
target), the accumulated total difficulty, and the total difficulty
recorded in the parent chain root. -/
structure VerifiableHeader where
  number : Nat
  hash : Nat
  parent_hash : Nat
  epoch : Epoch
  compact_target : Nat
  total_difficulty : Nat
  parent_chain_root_td : Nat
deriving DecidableEq, Repr

/-- Default header used for the (never taken) out-of-range cases of
`List.getD`; every use site is guarded by an index bound. -/
def dummyVH : VerifiableHeader :=
  { number := 0, hash := 0, parent_hash := 0, epoch := ⟨0, 0, 0⟩,
    compact_target := 0, total_difficulty := 0, parent_chain_root_td := 0 }

/-- The sampling content of a `GetLastStateProof` request, as read by
`check_if_response_is_matched`. -/
structure Request where
  start_number : Nat
  difficulty_boundary : Nat
  difficulties : List Nat
deriving DecidableEq, Repr

/-- The protocol constant `TAU` (from `ckb_constant::consensus`). -/
def TAU : Nat := 2

/-- `EpochDifficultyTrend`: comparison of two epoch difficulties.
The keyword `end` is unavailable as a field name, so the end difficulty
is called `finish`. -/
inductive EpochDifficultyTrend
  | unchanged
  | increased (start finish : Nat)
  | decreased (start finish : Nat)
deriving DecidableEq, Repr

/-- `EstimatedLimit`. -/
inductive EstimatedLimit
  | min
  | max
deriving DecidableEq, Repr

/-- `EpochCountGroupByTrend`. -/
inductive EpochCountGroupByTrend
  | increased (count : Nat)
  | decreased (count : Nat)
deriving DecidableEq, Repr

/-- `EpochDifficultyTrendDetails` (`end` is a keyword, renamed `ending`). -/
structure EpochDifficultyTrendDetails where
  start : EpochCountGroupByTrend
  ending : EpochCountGroupByTrend
deriving DecidableEq, Repr

/-- `EpochDifficultyTrend::new`. -/
def EpochDifficultyTrend.new (s e : Nat) : EpochDifficultyTrend :=
  if s = e then .unchanged
  else if s < e then .increased s e
  else .decreased s e

/-- The loop of the `Increased` arm of `check_tau`: starting from `s`,
saturating-multiply by `tau`, `n` times. -/
def satMulPow (s tau : Nat) : Nat → Nat
  | 0 => s
  | n + 1 => satMul (satMulPow s tau n) tau

/-- The loop of the `Decreased` arm of `check_tau`: starting from `s`,
divide by `tau` (integer division), `n` times. -/
def divPow (s tau : Nat) : Nat → Nat
  | 0 => s
  | n + 1 => divPow s tau n / tau

/-- `EpochDifficultyTrend::check_tau`. -/
def EpochDifficultyTrend.check_tau : EpochDifficultyTrend → Nat → Nat → Bool
  | .unchanged, _, _ => true
  | .increased s e, tau, n => decide (e ≤ satMulPow s tau n)
  | .decreased s e, tau, n => decide (divPow s tau n ≤ e)

/-- The `Increased` loop of `calculate_tau_exponent`: `for k in 0..limit`,
`tmp = tmp.saturating_mul(tau)`, return the first `k` with `tmp >= e`. -/
def tauExpIncrAux (e tau : Nat) : Nat → Nat → Nat → Option Nat
  | _, _, 0 => none
  | tmp, k, r + 1 =>
    let tmp2 := satMul tmp tau
    if e ≤ tmp2 then some k
    else tauExpIncrAux e tau tmp2 (k + 1) r

/-- The `Decreased` loop of `calculate_tau_exponent`: `for k in 0..limit`,
`tmp /= tau`, return the first `k` with `tmp <= e`. -/
def tauExpDecrAux (e tau : Nat) : Nat → Nat → Nat → Option Nat
  | _, _, 0 => none
  | tmp, k, r + 1 =>
    let tmp2 := tmp / tau
    if tmp2 ≤ e then some k
    else tauExpDecrAux e tau tmp2 (k + 1) r

/-- `EpochDifficultyTrend::calculate_tau_exponent`. -/
def EpochDifficultyTrend.calculate_tau_exponent :
    EpochDifficultyTrend → Nat → Nat → Option Nat
  | .unchanged, _, _ => some 0
  | .increased s e, tau, limit => tauExpIncrAux e tau s 0 limit
  | .decreased s e, tau, limit => tauExpDecrAux e tau s 0 limit

/-- `EpochDifficultyTrend::split_epochs`: each arm computes the
`(increased, decreased)` pair of the source and wraps it as the source
does (`Min` puts the decreased group first, `Max` the increased one). -/
def EpochDifficultyTrend.split_epochs (t : EpochDifficultyTrend)
    (limit : EstimatedLimit) (n k : Nat) : EpochDifficultyTrendDetails :=
  match limit, t with
  | .min, .unchanged =>
    let decreased := (n + 1) / 2
    { start := .decreased decreased, ending := .increased (n - decreased) }
  | .max, .unchanged =>
    let increased := (n + 1) / 2
    { start := .increased increased, ending := .decreased (n - increased) }
  | .min, .increased _ _ =>
    let decreased := (n - k + 1) / 2
    { start := .decreased decreased, ending := .increased (n - decreased) }
  | .max, .increased _ _ =>
    let increased := (n - k + 1) / 2 + k
    { start := .increased increased, ending := .decreased (n - increased) }
  | .min, .decreased _ _ =>
    let decreased := (n - k + 1) / 2 + k
    { start := .decreased decreased, ending := .increased (n - decreased) }
  | .max, .decreased _ _ =>
    let increased := (n - k + 1) / 2
    { start := .increased increased, ending := .decreased (n - increased) }

/-- `EpochCountGroupByTrend::subtract1` (the call sites guarantee the
count is positive; `Nat` subtraction is used). -/
def EpochCountGroupByTrend.subtract1 : EpochCountGroupByTrend → EpochCountGroupByTrend
  | .increased c => .increased (c - 1)
  | .decreased c => .decreased (c - 1)

/-- `EpochCountGroupByTrend::epochs_count`. -/
def EpochCountGroupByTrend.epochs_count : EpochCountGroupByTrend → Nat
  | .increased c => c
  | .decreased c => c

/-- `EpochDifficultyTrendDetails::remove_last_epoch`. -/
def EpochDifficultyTrendDetails.remove_last_epoch
    (d : EpochDifficultyTrendDetails) : EpochDifficultyTrendDetails :=
  if d.ending.epochs_count = 0 then { start := d.start.subtract1, ending := d.ending }
  else { start := d.start, ending := d.ending.subtract1 }

/-- `EpochDifficultyTrendDetails::total_epochs_count`. -/
def EpochDifficultyTrendDetails.total_epochs_count
    (d : EpochDifficultyTrendDetails) : Nat :=
  d.start.epochs_count + d.ending.epochs_count

/-- One group of the loop of `calculate_total_difficulty_limit`:
`none` models the abort on a `checked_add` overflow. -/
def runGroup (tau : Nat) : EpochCountGroupByTrend → Nat → Nat → Option (Nat × Nat)
  | .decreased 0, curr, total => some (curr, total)
  | .decreased (c + 1), curr, total =>
    let curr2 := curr / tau
    if total + curr2 ≤ U256MAX then runGroup tau (.decreased c) curr2 (total + curr2)
    else none
  | .increased 0, curr, total => some (curr, total)
  | .increased (c + 1), curr, total =>
    let curr2 := satMul curr tau
    if total + curr2 ≤ U256MAX then runGroup tau (.increased c) curr2 (total + curr2)
    else none

/-- `EpochDifficultyTrend::calculate_total_difficulty_limit`. -/
def calcTotalDiffLimit (startEpochDiff tau : Nat)
    (details : EpochDifficultyTrendDetails) : Option Nat :=
  (runGroup tau details.start startEpochDiff 0).bind fun p =>
    (runGroup tau details.ending p.1 p.2).map (·.2)

/-- `verify_tau`.  The compact-target decoding `compact_to_difficulty`
lives in the external `ckb_types` crate, so it is passed in as the
function `ctd`.  The `U256 * u64` products and the `u64` subtraction of
epoch numbers abort on overflow in the source; those aborts are the
`panicked` error. -/
def verify_tau (ctd : Nat → Nat) (se : Epoch) (sct : Nat) (ee : Epoch)
    (ect : Nat) (tau : Nat) : Except Code Bool :=
  if se.number = ee.number then
    if sct ≠ ect then .error .invalidCompactTarget else .ok true
  else
    let sed := ctd sct * se.length
    let eed := ctd ect * ee.length
    if U256MAX < sed ∨ U256MAX < eed then .error .panicked
    else if ee.number < se.number then .error .panicked
    else .ok ((EpochDifficultyTrend.new sed eed).check_tau tau (ee.number - se.number))

/-- Errors of `verify_total_difficulty`: `errmsg` models `Err(String)`,
`panicked` models a Rust abort (overflow, underflow). -/
inductive VtdError
  | errmsg
  | panicked
deriving DecidableEq, Repr

/-- `verify_total_difficulty`, with the compact-target decoding passed
in as `ctd` (it lives in the external `ckb_types` crate). -/
def verify_total_difficulty (ctd : Nat → Nat) (se : Epoch) (sct std : Nat)
    (ee : Epoch) (ect etd : Nat) (tau : Nat) : Except VtdError Unit :=
  if etd < std then .error .errmsg
  else
    let td := etd - std
    let sbd := ctd sct
    if se.number = ee.number then
      if ee.index < se.index then .error .panicked
      else
        let calcd := sbd * (ee.index - se.index)
        if U256MAX < calcd then .error .panicked
        else if td ≠ calcd then .error .errmsg
        else .ok ()
    else
      let ebd := ctd ect
      let sed := sbd * se.length
      let eed := ebd * ee.length
      if U256MAX < sed ∨ U256MAX < eed then .error .panicked
      else if ee.number < se.number then .error .panicked
      else
        let n := ee.number - se.number
        let trend := EpochDifficultyTrend.new sed eed
        match trend.calculate_tau_exponent tau n with
        | none => .error .errmsg
        | some k =>
          if se.length < se.index + 1 then .error .panicked
          else
            let sebc := se.length - se.index - 1
            let eebc := ee.index + 1
            let una := sbd * sebc + ebd * eebc
            if U256MAX < una then .error .panicked
            else if n = 1 then
              if td ≠ una then .error .errmsg else .ok ()
            else
              match calcTotalDiffLimit sed tau
                      ((trend.split_epochs .min n k).remove_last_epoch),
                    calcTotalDiffLimit sed tau
                      ((trend.split_epochs .max n k).remove_last_epoch) with
              | some amin, some amax =>
                if U256MAX < una + amin ∨ U256MAX < una + amax then .error .panicked
                else if td < una + amin ∨ una + amax < td then .error .errmsg
                else .ok ()
              | _, _ => .error .panicked

/-- The sortedness test of `check_if_response_is_matched`:
`headers.windows(2).any(|hs| hs[0].number >= hs[1].number)`. -/
def hasUnsortedPair : List VerifiableHeader → Bool
  | h0 :: h1 :: rest => decide (h1.number ≤ h0.number) || hasUnsortedPair (h1 :: rest)
  | _ => false

/-- `reorg_count`: the count of leading headers whose block number is
below `start_number`. -/
def reorgCount (start_number : Nat) (headers : List VerifiableHeader) : Nat :=
  (headers.takeWhile (fun h => decide (h.number < start_number))).length

/-- The reorg-segment validation of `check_if_response_is_matched`
(source lines 650-679): when `reorg_count` is nonzero, it must equal
`last_n_blocks` or the first header must be block 1, and the header at
index `reorg_count - 1` must be block `start_number - 1`. -/
def checkReorgHeaders (lnb sn rc : Nat) (headers : List VerifiableHeader) :
    Except Code Unit :=
  if rc = 0 then .ok ()
  else if rc ≠ lnb ∧ (headers.headD dummyVH).number ≠ 1 then
    .error .invalidReorgHeaders
  else if (headers.getD (rc - 1) dummyVH).number ≠ sn - 1 then
    .error .invalidReorgHeaders
  else .ok ()

/-- The `(sampled_count, last_n_count)` computation of
`check_if_response_is_matched` (source lines 681-695).  The `usize`
subtraction `before_boundary_count - reorg_count` would abort on
underflow; that abort is the `panicked` error. -/
def computeCounts (lnb boundary rc : Nat) (headers : List VerifiableHeader) :
    Except Code (Nat × Nat) :=
  let total := headers.length
  if lnb < total - rc then
    let before := (headers.takeWhile (fun h => decide (h.total_difficulty < boundary))).length
    let lnc := total - before
    if lnb < lnc then
      if before < rc then .error .panicked
      else .ok (before - rc, lnc)
    else .ok (total - rc - lnb, lnb)
  else .ok (0, total - rc)

/-- The inner `while let Some(diff) = difficulties.first()` loop of the
sampled-headers check, for one sampled header with total difficulties
`(parentTd, currTd)`.  Returns the final `is_valid` flag and the
remaining difficulties. -/
def consumeSamples (parentTd currTd : Nat) (isValid : Bool) :
    List Nat → Bool × List Nat
  | [] => (isValid, [])
  | d :: rest =>
    if isValid then
      if d ≤ currTd then consumeSamples parentTd currTd true rest
      else (true, d :: rest)
    else if parentTd < d ∧ d ≤ currTd then consumeSamples parentTd currTd true rest
    else (false, d :: rest)

/-- The `for item in &headers[reorg_count..reorg_count + sampled_count]`
loop of the sampled-headers check: each sampled header must end its
inner loop with `is_valid == true`, else `InvalidSamples`. -/
def processSampledHeaders (diffs : List Nat) :
    List VerifiableHeader → Except Code (List Nat)
  | [] => .ok diffs
  | h :: rest =>
    let r := consumeSamples h.parent_chain_root_td h.total_difficulty false diffs
    if r.1 then processSampledHeaders r.2 rest
    else .error .invalidSamples

/-- The tail of `check_if_response_is_matched` (source lines 697-803):
either the exact-suffix endpoint check (no sampled headers), or the
sampled-difficulty distribution check followed by the
leftover-difficulties check. -/
def checkSampledPart (req : Request) (last_header : VerifiableHeader)
    (rc sc lnc : Nat) (headers : List VerifiableHeader) : Except Code Unit :=
  if sc = 0 then
    if 0 < lnc then
      let firstN := (headers.getD rc dummyVH).number
      let lastN := (headers.getLastD dummyVH).number
      if firstN ≠ req.start_number ∨ lastN + 1 ≠ last_header.number then
        .error .malformedProtocolMessage
      else .ok ()
    else .ok ()
  else
    if rc + sc < headers.length then
      let firstLastNTd := (headers.getD (rc + sc) dummyVH).total_difficulty
      let diffs := req.difficulties.takeWhile (fun d => decide (d < firstLastNTd))
      match processSampledHeaders diffs ((headers.drop rc).take sc) with
      | .error e => .error e
      | .ok remaining =>
        match remaining with
        | [] => .ok ()
        | nextDifficulty :: _ =>
          if nextDifficulty ≤ (headers.getD (rc + sc) dummyVH).parent_chain_root_td then
            .error .invalidSamples
          else .ok ()
    else .error .panicked

/-- `check_if_response_is_matched`. -/
def check_if_response_is_matched (lnb : Nat) (req : Request)
    (headers : List VerifiableHeader) (last_header : VerifiableHeader) :
    Except Code (Nat × Nat × Nat) :=
  if headers.isEmpty then .error .malformedProtocolMessage
  else if hasUnsortedPair headers then .error .malformedProtocolMessage
  else
    let rc := reorgCount req.start_number headers
    match checkReorgHeaders lnb req.start_number rc headers with
    | .error e => .error e
    | .ok _ =>
      match computeCounts lnb req.difficulty_boundary rc headers with
      | .error e => .error e
      | .ok (sc, lnc) =>
        match checkSampledPart req last_header rc sc lnc headers with
        | .error e => .error e
        | .ok _ => .ok (rc, sc, lnc)

/-- Modelled from the spec: `HeaderView::is_parent_of` lives in the
external `ckb_types` crate; the spec's continuity condition is
`parent.hash == child.parent_hash` and `child.number == parent.number+1`. -/
def isParentOf (p c : VerifiableHeader) : Bool :=
  decide (p.hash = c.parent_hash) && decide (c.number = p.number + 1)

/-- `check_continuous_headers`: every adjacent pair of the slice must be
parent-linked, else `InvalidParentBlock`. -/
def check_continuous_headers : List VerifiableHeader → Except Code Unit
  | p :: c :: rest =>
    if isParentOf p c then check_continuous_headers (c :: rest)
    else .error .invalidParentBlock
  | _ => .ok ()

/-- `ProveRequest` (fields used by `SendLastStateProofProcess::execute`;
the flags are kept in `peers.rs`). -/
structure ProveRequest where
  last_header : VerifiableHeader
  content : Request
  skip_check_tau : Bool
  long_fork_detected : Bool
deriving DecidableEq, Repr

/-- `ProveState`. -/
structure ProveState where
  last_header : VerifiableHeader
  reorg_last_headers : List VerifiableHeader
  last_headers : List VerifiableHeader
deriving DecidableEq, Repr

/-- `ProveState::new_from_request`. -/
def ProveState.new_from_request (req : ProveRequest)
    (reorg lastH : List VerifiableHeader) : ProveState :=
  { last_header := req.last_header, reorg_last_headers := reorg, last_headers := lastH }

/-- `PeerState` as declared in `peers.rs`: an optional pending
`ProveRequest` and an optional committed `ProveState`. -/
structure PeerState where
  prove_request : Option ProveRequest
  prove_state : Option ProveState
deriving DecidableEq, Repr

/-- `PeerState::commit_prove_state`: store the new `ProveState` and
clear the pending `ProveRequest`. -/
def PeerState.commit_prove_state (st : PeerState) (ps : ProveState) : PeerState :=
  { st with prove_state := some ps, prove_request := none }

/-- One inbound `SendLastStateProof` message. -/
structure Msg where
  last_header : VerifiableHeader
  proof_is_empty : Bool
  headers : List VerifiableHeader
deriving DecidableEq, Repr

/-- The result `Status` of the message handler. -/
inductive ExecStatus
  | ok
  | err (code : Code)
deriving DecidableEq, Repr

/-- The collaborators of `SendLastStateProofProcess::execute` whose code
is outside the embedded sources: the chain-root / PoW / MMR checks call
into external crates, and `build_prove_request_content`,
`process_last_state`, `get_last_state_proof` and the long-fork detection
of the protocol-level commit are modelled from the spec (sections 4.G
and 7): the builder produces a sampling request, and the commit either
accepts the state or reports a long fork leaving the previous
`ProveState` in place. -/
structure DispatchEnv where
  last_n_blocks : Nat
  ctd : Nat → Nat
  checkChainRoots : List VerifiableHeader → Except Code Unit
  checkPow : List VerifiableHeader → Except Code Unit
  verifyMmr : VerifiableHeader → List VerifiableHeader → Except Code Unit
  buildContent : PeerState → VerifiableHeader → Option Request
  buildContentFromGenesis : VerifiableHeader → Option Request
  commitDetectsLongFork : PeerState → ProveState → Bool
  processLastState : PeerState → VerifiableHeader → PeerState
  getLastStateProofRequest : PeerState → VerifiableHeader → Option Request

/-- The TAU stage of `execute` (source lines 130-155): skipped when the
request carries `skip_check_tau` or when there are no sampled headers;
otherwise `verify_tau` runs on the first and last verified headers.
Returns `true` when the check passed (`failed_to_verify_tau` is its
negation). -/
def tauCheck (env : DispatchEnv) (origReq : ProveRequest)
    (headers : List VerifiableHeader) (rc sc lnc : Nat) : Except Code Bool :=
  if origReq.skip_check_tau then .ok true
  else if sc ≠ 0 then
    let sh := headers.getD rc dummyVH
    let eh := headers.getD (rc + sc + lnc - 1) dummyVH
    verify_tau env.ctd sh.epoch sh.compact_target eh.epoch eh.compact_target TAU
  else .ok true

/-- The total-difficulty stage of `execute` (source lines 173-194):
only run when there are sampled headers and a previously committed
`ProveState`; a `verify_total_difficulty` error message becomes
`InvalidTotalDifficulty`. -/
def totalDiffCheck (env : DispatchEnv) (st : PeerState)
    (lh : VerifiableHeader) (sc : Nat) : Except Code Unit :=
  if sc ≠ 0 then
    match st.prove_state with
    | some ps =>
      match verify_total_difficulty env.ctd ps.last_header.epoch
          ps.last_header.compact_target ps.last_header.total_difficulty
          lh.epoch lh.compact_target lh.total_difficulty TAU with
      | .ok _ => .ok ()
      | .error .errmsg => .error .invalidTotalDifficulty
      | .error .panicked => .error .panicked
    | none => .ok ()
  else .ok ()

/-- The `last_headers` construction of the commit path of `execute`
(source lines 229-277), including the `InvalidReorgHeaders` answer for
the branch with no previous prove state but a nonzero reorg segment. -/
def buildLastHeaders (st : PeerState) (rc lnc lnb : Nat)
    (headers newLast : List VerifiableHeader) :
    Except Code (List VerifiableHeader) :=
  if lnc = lnb then .ok newLast
  else if lnb < lnc then .ok (newLast.drop (lnc - lnb))
  else
    match st.prove_state with
    | some ps =>
      let old := if rc = 0 then ps.last_headers else headers.take rc
      if old.isEmpty then .ok newLast
      else
        let required := lnb - lnc
        .ok (old.drop (old.length - required) ++ newLast)
    | none =>
      if rc = 0 then .ok newLast
      else .error .invalidReorgHeaders

/-- `SendLastStateProofProcess::execute`: process one inbound
`SendLastStateProof` for a peer in state `st`, returning the new peer
state, the outbound requests, and the resulting status.  The trusted
state branch of the source has no counterpart in the `PeerState` of
`peers.rs`, so a peer with no pending `ProveRequest` takes the
"isn't waiting for a proof" path directly. -/
def execute (env : DispatchEnv) (st : PeerState) (msg : Msg) :
    PeerState × List Request × ExecStatus :=
  match st.prove_request with
  | none => (st, [], .ok)
  | some origReq =>
    if origReq.last_header = msg.last_header then
      match check_if_response_is_matched env.last_n_blocks origReq.content
          msg.headers msg.last_header with
      | .error e => (st, [], .err e)
      | .ok (rc, sc, lnc) =>
        match env.checkChainRoots msg.headers with
        | .error e => (st, [], .err e)
        | .ok _ =>
        match env.checkPow msg.headers with
        | .error e => (st, [], .err e)
        | .ok _ =>
        match tauCheck env origReq msg.headers rc sc lnc with
        | .error e => (st, [], .err e)
        | .ok tauOk =>
        match (if rc ≠ 0 then check_continuous_headers (msg.headers.take (rc - 1))
               else .ok ()) with
        | .error e => (st, [], .err e)
        | .ok _ =>
        match check_continuous_headers (msg.headers.drop (rc + sc)) with
        | .error e => (st, [], .err e)
        | .ok _ =>
        match env.verifyMmr msg.last_header msg.headers with
        | .error e => (st, [], .err e)
        | .ok _ =>
        match totalDiffCheck env st msg.last_header sc with
        | .error e => (st, [], .err e)
        | .ok _ =>
        if tauOk = false then
          match env.buildContent st msg.last_header with
          | some content =>
            let pr : ProveRequest :=
              { last_header := msg.last_header, content := content,
                skip_check_tau := true, long_fork_detected := false }
            ({ st with prove_request := some pr }, [content], .err .requireRecheck)
          | none => (st, [], .ok)
        else
          let reorgLast := msg.headers.take rc
          let newLast := msg.headers.drop (msg.headers.length - lnc)
          match buildLastHeaders st rc lnc env.last_n_blocks msg.headers newLast with
          | .error e => (st, [], .err e)
          | .ok lastHeaders =>
            let ps := ProveState.new_from_request origReq reorgLast lastHeaders
            if origReq.long_fork_detected then (st, [], .err .panicked)
            else if env.commitDetectsLongFork st ps then
              match env.buildContentFromGenesis ps.last_header with
              | some content =>
                let pr : ProveRequest :=
                  { last_header := ps.last_header, content := content,
                    skip_check_tau := false, long_fork_detected := true }
                ({ st with prove_request := some pr }, [content], .err .requireRecheck)
              | none => (st, [], .ok)
            else (st.commit_prove_state ps, [], .ok)
    else
      if msg.proof_is_empty then
        let st2 := env.processLastState st msg.last_header
        match env.getLastStateProofRequest st2 msg.last_header with
        | some content => (st2, [content], .ok)
        | none => (st2, [], .ok)
      else (st, [], .ok)

/-! Concrete fixtures used by the claim witnesses and counterexamples. -/

/-- A header literal: number, hash, parent hash, compact target, total
difficulty, parent-chain-root total difficulty, epoch. -/
def mkVH (n h ph ct td pcr : Nat) (ep : Epoch) : VerifiableHeader :=
  { number := n, hash := h, parent_hash := ph, epoch := ep,
    compact_target := ct, total_difficulty := td, parent_chain_root_td := pcr }

/-- An environment whose external checks all pass and whose builders
return nothing. -/
def okEnv : DispatchEnv :=
  { last_n_blocks := 3, ctd := fun c => c,
    checkChainRoots := fun _ => .ok (), checkPow := fun _ => .ok (),
    verifyMmr := fun _ _ => .ok (),
    buildContent := fun _ _ => none, buildContentFromGenesis := fun _ => none,
    commitDetectsLongFork := fun _ _ => false,
    processLastState := fun st _ => st, getLastStateProofRequest := fun _ _ => none }

/-- Fixture for C1: a response whose reorg segment `[997, 998, 999]` has a
broken parent link between blocks 998 and 999 (block 999 declares parent
hash 555 while block 998 has hash 98). -/
def hdrsC1 : List VerifiableHeader :=
  [mkVH 997 97 96 0 10 5 ⟨0,0,1⟩, mkVH 998 98 97 0 20 15 ⟨0,0,1⟩,
   mkVH 999 99 555 0 30 25 ⟨0,0,1⟩, mkVH 1000 100 99 0 40 35 ⟨0,0,1⟩,
   mkVH 1001 101 100 0 50 45 ⟨0,0,1⟩, mkVH 1002 102 101 0 60 55 ⟨0,0,1⟩]

/-- Fixture for C1: the advertised tip. -/
def lhC1 : VerifiableHeader := mkVH 1003 103 102 0 70 65 ⟨0,0,1⟩

/-- Fixture for C1: the pending request content. -/
def reqC1 : Request := ⟨1000, 999999, []⟩

/-- Fixture for C1: peer state awaiting a proof for `lhC1`. -/
def stC1 : PeerState := ⟨some ⟨lhC1, reqC1, false, false⟩, none⟩

/-- Fixture for C1: the inbound message. -/
def msgC1 : Msg := ⟨lhC1, false, hdrsC1⟩

/-- Fixture for the amended C1 witness: reorg segment `[996..999]` with a
broken parent link between its first two headers. -/
def hdrsC1w : List VerifiableHeader :=
  [mkVH 996 5 4 0 10 5 ⟨0,0,1⟩, mkVH 997 6 55 0 20 15 ⟨0,0,1⟩,
   mkVH 998 7 6 0 30 25 ⟨0,0,1⟩, mkVH 999 8 7 0 40 35 ⟨0,0,1⟩,
   mkVH 1000 9 8 0 50 45 ⟨0,0,1⟩]

/-- Fixture for the amended C1 witness: the advertised tip. -/
def lhC1w : VerifiableHeader := mkVH 1001 10 9 0 60 55 ⟨0,0,1⟩

/-- Fixture for the amended C1 witness: the pending request content. -/
def reqC1w : Request := ⟨1000, 999999, []⟩

/-- Fixture for the amended C1 witness: the environment. -/
def envC1w : DispatchEnv := { okEnv with last_n_blocks := 4 }

/-- Fixture for the amended C1 witness: the peer state. -/
def stC1w : PeerState := ⟨some ⟨lhC1w, reqC1w, false, false⟩, none⟩

/-- Fixture for the amended C1 witness: the inbound message. -/
def msgC1w : Msg := ⟨lhC1w, false, hdrsC1w⟩

/-- Fixture for C2: request asking for everything from block 1000. -/
def reqC2 : Request := ⟨1000, 999999, []⟩

/-- Fixture for C2: a strictly increasing last-n slice `[1000, 1002]`
whose endpoints match the requested range but which skips block 1001. -/
def hdrsC2 : List VerifiableHeader :=
  [mkVH 1000 1 0 0 10 5 ⟨0,0,1⟩, mkVH 1002 3 2 0 30 25 ⟨0,0,1⟩]

/-- Fixture for C2: the advertised tip, block 1003. -/
def lhC2 : VerifiableHeader := mkVH 1003 4 3 0 40 35 ⟨0,0,1⟩

/-- Fixture for C7: sampled header (block 5), then last-n blocks 10, 11
whose epochs make the TAU check fail (epoch difficulty 10 grows to 1000
over 2 epoch switches with TAU = 2). -/
def hdrsC7 : List VerifiableHeader :=
  [mkVH 5 10 9 10 50 20 ⟨0,0,1⟩, mkVH 10 20 19 10 100 80 ⟨1,0,1⟩,
   mkVH 11 30 20 1000 110 100 ⟨2,0,1⟩]

/-- Fixture for C7: the advertised tip. -/
def lhC7 : VerifiableHeader := mkVH 12 40 30 1000 120 110 ⟨2,1,1⟩

/-- Fixture for C7: the pending request content. -/
def reqC7 : Request := ⟨1, 60, [30]⟩

/-- Fixture for C7: the content of the fresh sampling request built
after the TAU failure. -/
def contentC7 : Request := ⟨10, 70, [65]⟩

/-- Fixture for C7: the environment, whose request builder yields
`contentC7`. -/
def envC7 : DispatchEnv :=
  { okEnv with last_n_blocks := 2, buildContent := fun _ _ => some contentC7 }

/-- Fixture for C7: the peer state awaiting a proof for `lhC7`. -/
def stC7 : PeerState := ⟨some ⟨lhC7, reqC7, false, false⟩, none⟩

/-- Fixture for C7: the inbound message. -/
def msgC7 : Msg := ⟨lhC7, false, hdrsC7⟩

/-- Fixture for C10: the request samples difficulty 70, but the sampled
header (block 5, total difficulties `(40, 50]`) covers no requested
difficulty. -/
def reqC10 : Request := ⟨1, 60, [70]⟩

/-- Fixture for C10: the returned headers. -/
def hdrsC10 : List VerifiableHeader :=
  [mkVH 5 10 9 0 50 40 ⟨0,0,1⟩, mkVH 9 20 19 0 100 90 ⟨0,0,1⟩]

/-- Fixture for C10: the advertised tip. -/
def lhC10 : VerifiableHeader := mkVH 10 30 20 0 120 100 ⟨0,0,1⟩

/-! Helper lemmas. -/

/-- The saturating-multiplication loop of `check_tau` computes the exact
product capped at `U256MAX`. -/
theorem satMulPow_spec (s tau : Nat) (hs : s ≤ U256MAX) (ht : 1 ≤ tau) :
    ∀ n, satMulPow s tau n = min (s * tau ^ n) U256MAX := by
  intro n
  induction n with
  | zero => simp [satMulPow, Nat.min_eq_left hs]
  | succ n ih =>
    rw [satMulPow, ih, satMul]
    rcases le_or_lt (s * tau ^ n) U256MAX with h | h
    · rw [Nat.min_eq_left h, pow_succ, ← Nat.mul_assoc]
    · have h1 : U256MAX ≤ U256MAX * tau := Nat.le_mul_of_pos_right _ ht
      have h2 : U256MAX ≤ s * tau ^ (n + 1) := by
        calc U256MAX ≤ s * tau ^ n := Nat.le_of_lt h
          _ ≤ s * tau ^ n * tau := Nat.le_mul_of_pos_right _ ht
          _ = s * tau ^ (n + 1) := by rw [pow_succ, Nat.mul_assoc]
      rw [Nat.min_eq_right (Nat.le_of_lt h), Nat.min_eq_right h1, Nat.min_eq_right h2]

/-- The repeated-division loop of `check_tau` computes division by the
power. -/
theorem divPow_spec (s tau : Nat) : ∀ n, divPow s tau n = s / tau ^ n := by
  intro n
  induction n with
  | zero => simp [divPow]
  | succ n ih => rw [divPow, ih, Nat.div_div_eq_div_mul, pow_succ]

/-- `takeWhile` never yields more elements than its input. -/
theorem length_takeWhile_le (p : VerifiableHeader → Bool) (l : List VerifiableHeader) :
    (l.takeWhile p).length ≤ l.length :=
  (List.takeWhile_sublist p).length_le

/-- `reorg_count` is at most the number of headers. -/
theorem reorgCount_le (sn : Nat) (headers : List VerifiableHeader) :
    reorgCount sn headers ≤ headers.length :=
  length_takeWhile_le _ headers

/-- On success, `computeCounts` yields counts that fill the list exactly. -/
theorem computeCounts_sum (lnb bd rc : Nat) (headers : List VerifiableHeader)
    (s l : Nat) (hrc : rc ≤ headers.length)
    (h : computeCounts lnb bd rc headers = .ok (s, l)) :
    rc + s + l = headers.length := by
  have hb : (headers.takeWhile (fun h => decide (h.total_difficulty < bd))).length ≤
      headers.length := length_takeWhile_le _ headers
  unfold computeCounts at h
  dsimp only at h
  split at h
  · split at h
    · split at h
      · exact absurd h (by simp)
      · rw [Except.ok.injEq, Prod.mk.injEq] at h
        omega
    · rw [Except.ok.injEq, Prod.mk.injEq] at h
      omega
  · rw [Except.ok.injEq, Prod.mk.injEq] at h
    omega

/-- A broken adjacent pair anywhere in a slice makes
`check_continuous_headers` answer `InvalidParentBlock`. -/
theorem check_continuous_headers_broken (l : List VerifiableHeader) (i : Nat)
    (hlen : i + 1 < l.length)
    (hb : isParentOf (l.getD i dummyVH) (l.getD (i + 1) dummyVH) = false) :
    check_continuous_headers l = .error .invalidParentBlock := by
  induction l generalizing i with
  | nil => simp at hlen
  | cons a t ih =>
    cases t with
    | nil => simp at hlen
    | cons b t' =>
      rw [check_continuous_headers]
      cases i with
      | zero =>
        simp only [List.getD_cons_zero, List.getD_cons_succ] at hb
        rw [hb]
        simp
      | succ j =>
        simp only [List.getD_cons_succ] at hb
        have hj : j + 1 < (b :: t').length := by
          simpa using hlen
        rw [ih j hj hb]
        split <;> rfl

/-- Processing a concatenation of sampled headers processes the parts in
order, threading the remaining difficulties. -/
theorem processSampledHeaders_append (l1 l2 : List VerifiableHeader) :
    ∀ diffs, processSampledHeaders diffs (l1 ++ l2) =
      match processSampledHeaders diffs l1 with
      | .ok rem => processSampledHeaders rem l2
      | .error e => .error e := by
  induction l1 with
  | nil => intro diffs; simp [processSampledHeaders]
  | cons h t ih =>
    intro diffs
    rw [List.cons_append, processSampledHeaders, processSampledHeaders]
    split
    · exact ih _
    · rfl

/-- If no offered difficulty covers the block, the inner loop of the
sampled check ends with `is_valid == false`. -/
theorem consumeSamples_none (p c : Nat) (diffs : List Nat)
    (h : ∀ d ∈ diffs, ¬(p < d ∧ d ≤ c)) :
    (consumeSamples p c false diffs).1 = false := by
  cases diffs with
  | nil => rfl
  | cons d rest =>
    rw [consumeSamples, if_neg (by simp), if_neg (h d (by simp))]

/-! Claim theorems. -/

/-- C8: for every trend, every limit, every `n ≥ 1` and every `k < n`,
`split_epochs` returns details whose increased count plus decreased
count equals `n`. -/
theorem claim_c8_split_epochs (t : EpochDifficultyTrend) (limit : EstimatedLimit)
    (n k : Nat) (hn : 1 ≤ n) (hk : k < n) :
    (t.split_epochs limit n k).total_epochs_count = n := by
  cases t <;> cases limit <;>
    simp [EpochDifficultyTrend.split_epochs,
      EpochDifficultyTrendDetails.total_epochs_count,
      EpochCountGroupByTrend.epochs_count] <;>
    omega

/-- Witness for C8 at the trend `Increased(1, 2)`, limit `Max`, `n = 3`,
`k = 1`. -/
theorem claim_c8_split_epochs_witness :
    ((EpochDifficultyTrend.increased 1 2).split_epochs .max 3 1).total_epochs_count = 3 :=
  claim_c8_split_epochs (.increased 1 2) .max 3 1 (by decide) (by decide)

/-- C4: `check_tau` on the trend built from `(start, finish)` always
accepts an unchanged trend, accepts an increased trend exactly when
`start * tau ^ N ≥ finish`, and accepts a decreased trend exactly when
`start / tau ^ N ≤ finish`. -/
theorem claim_c4_check_tau (s e tau n : Nat) (hs : s ≤ U256MAX) (he : e ≤ U256MAX)
    (htau : 2 ≤ tau) :
    (EpochDifficultyTrend.new s e = .unchanged →
      (EpochDifficultyTrend.new s e).check_tau tau n = true) ∧
    (EpochDifficultyTrend.new s e = .increased s e →
      ((EpochDifficultyTrend.new s e).check_tau tau n = true ↔ e ≤ s * tau ^ n)) ∧
    (EpochDifficultyTrend.new s e = .decreased s e →
      ((EpochDifficultyTrend.new s e).check_tau tau n = true ↔ s / tau ^ n ≤ e)) := by
  have h1 : 1 ≤ tau := by omega
  refine ⟨fun h => ?_, fun h => ?_, fun h => ?_⟩
  · rw [h]; rfl
  · rw [h, EpochDifficultyTrend.check_tau, satMulPow_spec s tau hs h1 n]
    simp only [decide_eq_true_eq, Nat.le_min]
    exact and_iff_left he
  · rw [h, EpochDifficultyTrend.check_tau, divPow_spec s tau n]
    simp only [decide_eq_true_eq]

/-- Witness for C4 at `(start, finish) = (4, 9)`, `tau = 2`, `N = 2`:
the trend is increased and `check_tau` rejects since `4 * 2^2 < 9` is
false, i.e. accepts since `9 ≤ 16`. -/
theorem claim_c4_check_tau_witness :
    (EpochDifficultyTrend.new 4 9).check_tau 2 2 = true ↔ 9 ≤ 4 * 2 ^ 2 :=
  (claim_c4_check_tau 4 9 2 2 (by norm_num [U256MAX]) (by norm_num [U256MAX])
    (by norm_num)).2.1 (by decide)

/-- C3: whenever `check_if_response_is_matched` succeeds, the returned
triple sums to the number of returned headers. -/
theorem claim_c3_sum (lnb : Nat) (req : Request) (headers : List VerifiableHeader)
    (lh : VerifiableHeader) (r s l : Nat)
    (h : check_if_response_is_matched lnb req headers lh = .ok (r, s, l)) :
    r + s + l = headers.length := by
  unfold check_if_response_is_matched at h
  dsimp only at h
  split at h
  · exact absurd h (by simp)
  split at h
  · exact absurd h (by simp)
  split at h
  · exact absurd h (by simp)
  split at h
  · exact absurd h (by simp)
  rename_i sc lnc heq
  split at h
  · exact absurd h (by simp)
  rw [Except.ok.injEq, Prod.mk.injEq, Prod.mk.injEq] at h
  obtain ⟨h1, h2, h3⟩ := h
  subst h1 h2 h3
  exact computeCounts_sum _ _ _ _ _ _ (reorgCount_le _ _) heq

/-- Witness for C3: a response of three contiguous suffix blocks yields
`(0, 0, 3)` whose sum is the header count. -/
theorem claim_c3_sum_witness :
    0 + 0 + 3 = [mkVH 1000 1 0 0 10 5 ⟨0,0,1⟩, mkVH 1001 2 1 0 20 15 ⟨0,0,1⟩,
      mkVH 1002 3 2 0 30 25 ⟨0,0,1⟩].length :=
  claim_c3_sum 3 ⟨1000, 99, []⟩ _ (mkVH 1003 4 3 0 40 35 ⟨0,0,1⟩) 0 0 3 (by rfl)

/-- C6: when the reorg count is nonzero, `check_if_response_is_matched`
returns `InvalidReorgHeaders` unless (the reorg count equals
`last_n_blocks` or the first header is block 1) and the header at index
`reorg_count - 1` is block `start_number - 1`. -/
theorem claim_c6_reorg_validation (lnb : Nat) (req : Request)
    (headers : List VerifiableHeader) (lh : VerifiableHeader)
    (hne : headers.isEmpty = false) (hs : hasUnsortedPair headers = false)
    (hrc : reorgCount req.start_number headers ≠ 0)
    (hcond : ¬((reorgCount req.start_number headers = lnb ∨
        (headers.headD dummyVH).number = 1) ∧
      (headers.getD (reorgCount req.start_number headers - 1) dummyVH).number =
        req.start_number - 1)) :
    check_if_response_is_matched lnb req headers lh = .error .invalidReorgHeaders := by
  push_neg at hcond
  have hre : checkReorgHeaders lnb req.start_number
      (reorgCount req.start_number headers) headers = .error .invalidReorgHeaders := by
    unfold checkReorgHeaders
    rw [if_neg hrc]
    by_cases h1 : reorgCount req.start_number headers = lnb ∨
        (headers.headD dummyVH).number = 1
    · rw [if_neg (by tauto), if_pos (hcond h1)]
    · rw [if_pos (by tauto)]
  simp only [check_if_response_is_matched, hne, hs, hre, Bool.false_eq_true,
    if_false]

/-- Witness for C6: a single reorg header, block 999 against
`start_number = 1000` with `last_n_blocks = 5`: the count is neither 5
nor starting at block 1, so the response is rejected. -/
theorem claim_c6_reorg_validation_witness :
    check_if_response_is_matched 5 (⟨1000, 0, []⟩ : Request)
      [mkVH 999 9 8 0 10 5 ⟨0,0,1⟩] (mkVH 1001 1 1 0 20 15 ⟨0,0,1⟩) =
      .error .invalidReorgHeaders :=
  claim_c6_reorg_validation 5 _ _ _ rfl rfl (by decide) (by decide)

/-- C2, counterexample: the strictly increasing slice `[1000, 1002]`
with matching endpoints but a missing interior block 1001 is accepted by
`check_if_response_is_matched` as `(0, 0, 2)` instead of being rejected
with `MalformedProtocolMessage`. -/
theorem claim_c2_counterexample :
    hasUnsortedPair hdrsC2 = false ∧
    (hdrsC2.getD 0 dummyVH).number = reqC2.start_number ∧
    (hdrsC2.getD 1 dummyVH).number + 1 = lhC2.number ∧
    (hdrsC2.getD 1 dummyVH).number ≠ (hdrsC2.getD 0 dummyVH).number + 1 ∧
    check_if_response_is_matched 5 reqC2 hdrsC2 lhC2 = .ok (0, 0, 2) :=
  ⟨rfl, rfl, rfl, by decide, rfl⟩

/-- C2, amended: with no sampled headers and a nonzero last-n count, the
function checks only the endpoints of the slice: it succeeds iff the
first last-n header has number `start_number` and the last header's
number plus one is the tip's number; interior gaps are not detected
here. -/
theorem claim_c2_amended (lnb : Nat) (req : Request)
    (headers : List VerifiableHeader) (lh : VerifiableHeader) (lnc : Nat)
    (hne : headers.isEmpty = false) (hs : hasUnsortedPair headers = false)
    (hre : checkReorgHeaders lnb req.start_number
      (reorgCount req.start_number headers) headers = .ok ())
    (hcc : computeCounts lnb req.difficulty_boundary
      (reorgCount req.start_number headers) headers = .ok (0, lnc))
    (hlnc : 0 < lnc) :
    check_if_response_is_matched lnb req headers lh =
        .ok (reorgCount req.start_number headers, 0, lnc) ↔
      ((headers.getD (reorgCount req.start_number headers) dummyVH).number =
          req.start_number ∧
        (headers.getLastD dummyVH).number + 1 = lh.number) := by
  simp only [check_if_response_is_matched, hne, hs, hre, hcc, Bool.false_eq_true,
    if_false]
  unfold checkSampledPart
  rw [if_pos rfl, if_pos hlnc]
  by_cases hc : (headers.getD (reorgCount req.start_number headers) dummyVH).number ≠
      req.start_number ∨ (headers.getLastD dummyVH).number + 1 ≠ lh.number
  · rw [if_pos hc]
    constructor
    · intro h
      exact absurd h (by simp)
    · intro h
      exact absurd hc (by tauto)
  · rw [if_neg hc]
    push_neg at hc
    exact ⟨fun _ => hc, fun _ => rfl⟩

/-- Witness for the amended C2: the contiguous slice `[1000, 1001]` with
matching endpoints is accepted as `(0, 0, 2)`. -/
theorem claim_c2_amended_witness :
    check_if_response_is_matched 5 (⟨1000, 9999, []⟩ : Request)
      [mkVH 1000 1 0 0 10 5 ⟨0,0,1⟩, mkVH 1001 2 1 0 20 15 ⟨0,0,1⟩]
      (mkVH 1002 3 2 0 30 25 ⟨0,0,1⟩) = .ok (0, 0, 2) :=
  (claim_c2_amended 5 (⟨1000, 9999, []⟩ : Request)
    [mkVH 1000 1 0 0 10 5 ⟨0,0,1⟩, mkVH 1001 2 1 0 20 15 ⟨0,0,1⟩]
    (mkVH 1002 3 2 0 30 25 ⟨0,0,1⟩) 2 rfl rfl rfl rfl
    (by decide)).mpr ⟨rfl, rfl⟩

/-- C5: `verify_total_difficulty` fails whenever the total difficulty
decreases, and for two headers of the same epoch number (with the start
index not above the end index) it succeeds exactly when the difficulty
delta is the decoded start block difficulty times the index delta. -/
theorem claim_c5_total_difficulty (ctd : Nat → Nat) (se ee : Epoch)
    (sct std ect etd tau : Nat) (hetd : etd ≤ U256MAX) :
    (etd < std → verify_total_difficulty ctd se sct std ee ect etd tau =
      .error .errmsg) ∧
    (std ≤ etd → se.number = ee.number → se.index ≤ ee.index →
      (verify_total_difficulty ctd se sct std ee ect etd tau = .ok () ↔
        etd - std = ctd sct * (ee.index - se.index))) := by
  constructor
  · intro hlt
    unfold verify_total_difficulty
    rw [if_pos hlt]
  · intro hle hnum hidx
    unfold verify_total_difficulty
    dsimp only
    rw [if_neg (by omega), if_pos hnum, if_neg (by omega)]
    split_ifs with hovf heq
    · constructor
      · intro h
        exact absurd h (by simp)
      · intro h
        omega
    · constructor
      · intro h
        exact absurd h (by simp)
      · intro h
        exact absurd h heq
    · simp only [not_not] at heq
      simp [heq]

/-- Witness for C5: same epoch number 5, indexes 2 and 7, identity
decoding of the compact target 3, total difficulties 100 and 115:
`115 - 100 = 3 * (7 - 2)`, so the check succeeds. -/
theorem claim_c5_total_difficulty_witness :
    verify_total_difficulty (fun c => c) ⟨5, 2, 10⟩ 3 100 ⟨5, 7, 10⟩ 9 115 2 =
      .ok () :=
  ((claim_c5_total_difficulty (fun c => c) ⟨5, 2, 10⟩ ⟨5, 7, 10⟩ 3 100 9 115 2
    (by norm_num [U256MAX])).2 (by norm_num) rfl (by norm_num)).mpr (by norm_num)

/-- Unfolding of the sampled-headers loop at a cons cell. -/
theorem processSampledHeaders_cons (diffs : List Nat) (h : VerifiableHeader)
    (rest : List VerifiableHeader) :
    processSampledHeaders diffs (h :: rest) =
      if (consumeSamples h.parent_chain_root_td h.total_difficulty false diffs).1 then
        processSampledHeaders
          (consumeSamples h.parent_chain_root_td h.total_difficulty false diffs).2 rest
      else .error .invalidSamples := rfl

/-- C10: if, when the sampled check reaches a header `hd` of the sampled
segment, no remaining requested difficulty `d` satisfies
`parent_td < d ≤ total_difficulty`, then `check_if_response_is_matched`
returns `InvalidSamples`. -/
theorem claim_c10_invalid_samples (lnb : Nat) (req : Request)
    (headers : List VerifiableHeader) (lh : VerifiableHeader) (sc lnc : Nat)
    (pre post : List VerifiableHeader) (hd : VerifiableHeader) (rem : List Nat)
    (hne : headers.isEmpty = false) (hs : hasUnsortedPair headers = false)
    (hre : checkReorgHeaders lnb req.start_number
      (reorgCount req.start_number headers) headers = .ok ())
    (hcc : computeCounts lnb req.difficulty_boundary
      (reorgCount req.start_number headers) headers = .ok (sc, lnc))
    (hsc : sc ≠ 0)
    (hlen : reorgCount req.start_number headers + sc < headers.length)
    (hslice : (headers.drop (reorgCount req.start_number headers)).take sc =
      pre ++ hd :: post)
    (hpre : processSampledHeaders
      (req.difficulties.takeWhile (fun d => decide (d <
        (headers.getD (reorgCount req.start_number headers + sc)
          dummyVH).total_difficulty))) pre = .ok rem)
    (hnone : ∀ d ∈ rem, ¬(hd.parent_chain_root_td < d ∧ d ≤ hd.total_difficulty)) :
    check_if_response_is_matched lnb req headers lh = .error .invalidSamples := by
  have hproc : processSampledHeaders
      (req.difficulties.takeWhile (fun d => decide (d <
        (headers.getD (reorgCount req.start_number headers + sc)
          dummyVH).total_difficulty)))
      ((headers.drop (reorgCount req.start_number headers)).take sc) =
      .error .invalidSamples := by
    rw [hslice, processSampledHeaders_append, hpre]
    dsimp only
    rw [processSampledHeaders_cons, consumeSamples_none _ _ _ hnone]
    simp
  have hsp : checkSampledPart req lh (reorgCount req.start_number headers)
      sc lnc headers = .error .invalidSamples := by
    unfold checkSampledPart
    rw [if_neg hsc, if_pos hlen]
    dsimp only
    rw [hproc]
  simp only [check_if_response_is_matched, hne, hs, hre, hcc, hsp,
    Bool.false_eq_true, if_false]

/-- Witness for C10: the request samples difficulty 70, but the only
sampled header covers `(40, 50]`; the check rejects with
`InvalidSamples`. -/
theorem claim_c10_invalid_samples_witness :
    check_if_response_is_matched 1 reqC10 hdrsC10 lhC10 =
      .error .invalidSamples :=
  claim_c10_invalid_samples 1 reqC10 hdrsC10 lhC10 1 1 [] []
    (mkVH 5 10 9 0 50 40 ⟨0,0,1⟩) [70]
    rfl rfl rfl rfl (by decide) (by decide) rfl rfl (by decide)

/-- C9: committing a `ProveState` clears the pending `ProveRequest`, so
re-processing any further `SendLastStateProof` takes the "isn't waiting
for a proof" path: the handler returns an ok status, sends nothing, and
leaves the peer state unchanged. -/
theorem claim_c9_idempotent_after_commit (env : DispatchEnv) (st : PeerState)
    (ps : ProveState) (msg : Msg) :
    (st.commit_prove_state ps).prove_request = none ∧
    execute env (st.commit_prove_state ps) msg =
      (st.commit_prove_state ps, [], .ok) :=
  ⟨rfl, rfl⟩

/-- C7: when the pending request matches the tip, every check passes
except TAU, and the request builder yields a content, the handler stores
a fresh `ProveRequest` with `skip_check_tau` set, sends that content,
answers `RequireRecheck`, and commits no `ProveState`. -/
theorem claim_c7_tau_recheck (env : DispatchEnv) (st : PeerState) (msg : Msg)
    (origReq : ProveRequest) (rc sc lnc : Nat) (content : Request)
    (hreq : st.prove_request = some origReq)
    (hmatch : origReq.last_header = msg.last_header)
    (hcirm : check_if_response_is_matched env.last_n_blocks origReq.content
      msg.headers msg.last_header = .ok (rc, sc, lnc))
    (hcr : env.checkChainRoots msg.headers = .ok ())
    (hpow : env.checkPow msg.headers = .ok ())
    (htau : tauCheck env origReq msg.headers rc sc lnc = .ok false)
    (hcont1 : (if rc ≠ 0 then check_continuous_headers (msg.headers.take (rc - 1))
      else .ok ()) = .ok ())
    (hcont2 : check_continuous_headers (msg.headers.drop (rc + sc)) = .ok ())
    (hmmr : env.verifyMmr msg.last_header msg.headers = .ok ())
    (htd : totalDiffCheck env st msg.last_header sc = .ok ())
    (hbuild : env.buildContent st msg.last_header = some content) :
    execute env st msg =
      ({ st with prove_request := some ⟨msg.last_header, content, true, false⟩ },
        [content], .err .requireRecheck) ∧
    (execute env st msg).1.prove_state = st.prove_state := by
  have hexec : execute env st msg =
      ({ st with prove_request := some ⟨msg.last_header, content, true, false⟩ },
        [content], .err .requireRecheck) := by
    simp [execute, hreq, hmatch, hcirm, hcr, hpow, htau, hcont1, hcont2, hmmr,
      htd, hbuild]
  exact ⟨hexec, by rw [hexec]⟩

/-- Witness for C7: the fixture response whose epoch difficulty grows
from 10 to 1000 over two epoch switches fails TAU with `TAU = 2`; the
handler answers `RequireRecheck`, sends `contentC7` and stores the new
request with `skip_check_tau` set. -/
theorem claim_c7_tau_recheck_witness :
    execute envC7 stC7 msgC7 =
      ({ stC7 with prove_request := some ⟨lhC7, contentC7, true, false⟩ },
        [contentC7], .err .requireRecheck) :=
  (claim_c7_tau_recheck envC7 stC7 msgC7 ⟨lhC7, reqC7, false, false⟩ 0 1 2
    contentC7 rfl rfl rfl rfl rfl rfl rfl rfl rfl rfl rfl).1

/-- C1, counterexample: the response `hdrsC1` has a broken parent link
between the reorg headers at indices 1 and 2 (both inside the reorg
segment, whose length is 3), yet the handler accepts the response and
commits a `ProveState`. -/
theorem claim_c1_counterexample :
    2 < reorgCount reqC1.start_number hdrsC1 ∧
    isParentOf (hdrsC1.getD 1 dummyVH) (hdrsC1.getD 2 dummyVH) = false ∧
    (execute okEnv stC1 msgC1).2.2 = .ok ∧
    (execute okEnv stC1 msgC1).1.prove_state.isSome = true :=
  ⟨by decide, by decide, rfl, rfl⟩

/-- C1, amended: the continuity check of the handler covers the reorg
headers at indices `0 .. reorg_count - 2` only: a broken adjacent pair
at positions `(i, i+1)` with `i + 1 < reorg_count - 1` makes the handler
reject with `InvalidParentBlock` (the pair ending at the last reorg
header is outside the checked slice). -/
theorem claim_c1_amended (env : DispatchEnv) (st : PeerState) (msg : Msg)
    (origReq : ProveRequest) (rc sc lnc : Nat) (b : Bool) (i : Nat)
    (hreq : st.prove_request = some origReq)
    (hmatch : origReq.last_header = msg.last_header)
    (hcirm : check_if_response_is_matched env.last_n_blocks origReq.content
      msg.headers msg.last_header = .ok (rc, sc, lnc))
    (hcr : env.checkChainRoots msg.headers = .ok ())
    (hpow : env.checkPow msg.headers = .ok ())
    (htau : tauCheck env origReq msg.headers rc sc lnc = .ok b)
    (hi : i + 1 < rc - 1) (hilen : i + 1 < msg.headers.length)
    (hbroken : isParentOf (msg.headers.getD i dummyVH)
      (msg.headers.getD (i + 1) dummyVH) = false) :
    execute env st msg = (st, [], .err .invalidParentBlock) := by
  have hrc : rc ≠ 0 := by omega
  have h1 : i + 1 < (msg.headers.take (rc - 1)).length := by
    rw [List.length_take]
    omega
  have h2 : ∀ j, j < rc - 1 →
      (msg.headers.take (rc - 1)).getD j dummyVH = msg.headers.getD j dummyVH := by
    intro j hj
    simp [List.getD_eq_getElem?_getD, List.getElem?_take_of_lt hj]
  have hcont : check_continuous_headers (msg.headers.take (rc - 1)) =
      .error .invalidParentBlock := by
    apply check_continuous_headers_broken _ i h1
    rw [h2 i (by omega), h2 (i + 1) (by omega)]
    exact hbroken
  have hif : (if rc ≠ 0 then check_continuous_headers (msg.headers.take (rc - 1))
      else .ok ()) = .error .invalidParentBlock := by
    rw [if_pos hrc, hcont]
  simp [execute, hreq, hmatch, hcirm, hcr, hpow, htau, hif]

/-- Witness for the amended C1: the fixture `hdrsC1w` has a broken link
between the reorg headers at indices 0 and 1, inside the checked slice
(`reorg_count = 4`), and the handler rejects with `InvalidParentBlock`. -/
theorem claim_c1_amended_witness :
    execute envC1w stC1w msgC1w = (stC1w, [], .err .invalidParentBlock) :=
  claim_c1_amended envC1w stC1w msgC1w ⟨lhC1w, reqC1w, false, false⟩ 4 0 1 true 0
    rfl rfl rfl rfl rfl rfl (by decide) (by decide) (by decide)
